import Mathlib

/-!
# Verification of the awstools Terraform remote-state pipeline

A shallow embedding in Lean 4 of the Terraform backend pull / load
pipeline of the `awstools` repository (`aws/dump` command): the
`S3Backend.Download`, `TerraformBackends.Verify`, `TerraformBackends.Pull`,
`TerraformBackends.Load` and `LoadStateFromFile` functions.

Modelling conventions:
* Strings are Lean `String`s (sequences of characters); the Go code works
  on UTF-8 bytes, and all inputs considered here are ASCII, where the two
  views agree.
* The local filesystem is a list of the paths of the files that exist;
  directory creation and file opening are modelled as always succeeding
  and are recorded as effects.  The batched network download is modelled
  by a boolean oracle (per backend index).
* Go `map[string]string` values are modelled as association lists with at
  most one entry per key; assignment is a functional update.  Iteration
  over a Go map has unspecified order, so wherever the code ranges over a
  map we quantify over permutations of the association list.
* A Go `panic` (nil-pointer dereference, failed type assertion) is a
  distinguished outcome `GoErr.panicNilDeref` / `GoErr.panicTypeAssert`,
  kept separate from errors that Go functions *return* to their caller.
-/

namespace Awstools

/-! ## Go standard library fragments -/

/-- Go `strings.Replace` scanning for a non-empty pattern `old`,
left to right over the subject list.  `skip` counts characters still to
be consumed from an occurrence just matched (so the replacement is
non-overlapping); it is `old.length - 1` right after a match because the
first character of the occurrence is consumed by the match itself.  The
recursion is structural on the subject list, so concrete runs reduce in
the kernel. -/
def replaceAux (old new : List Char) : Nat → List Char → List Char
  | _, [] => []
  | skip + 1, _ :: rest => replaceAux old new skip rest
  | 0, c :: rest =>
    if (c :: rest).take old.length = old then
      new ++ replaceAux old new (old.length - 1) rest
    else
      c :: replaceAux old new 0 rest

/-- Replace every non-overlapping occurrence of the non-empty pattern
`old` by `new`, scanning left to right. -/
def replaceNonempty (old new : List Char) (s : List Char) : List Char :=
  replaceAux old new 0 s

/-- Go `strings.Replace(s, old, new, -1)`: literal (non-regex) replacement
of every occurrence of `old` by `new`.  An empty `old` inserts `new`
before every character and at the end, as in Go. -/
def goReplace (s old new : String) : String :=
  if old = new then s
  else if old.data.isEmpty then
    String.mk (new.data ++ s.data.flatMap (fun c => c :: new.data))
  else
    String.mk (replaceNonempty old.data new.data s.data)

/-- Go `path/filepath.Split` on the character list: split after the final
slash into (directory part including the trailing slash, file part). -/
def goSplitList : List Char → List Char × List Char
  | [] => ([], [])
  | c :: rest =>
    if rest.contains '/' then
      let (d, f) := goSplitList rest
      (c :: d, f)
    else if c = '/' then ([c], rest)
    else ([], c :: rest)

/-- Go `path/filepath.Split`. -/
def filepathSplit (p : String) : String × String :=
  let (d, f) := goSplitList p.data
  (String.mk d, String.mk f)

/-- One step of the component stack used by Go `path/filepath.Clean`
(Unix rules): `""` and `"."` are skipped, `".."` pops a component (or is
kept when not rooted and there is nothing to pop), anything else is
pushed.  The stack is stored top-first. -/
def cleanPush (rooted : Bool) (stack : List String) (c : String) : List String :=
  if c = "" ∨ c = "." then stack
  else if c = ".." then
    match stack with
    | [] => if rooted then [] else [".."]
    | top :: rest => if top = ".." then c :: top :: rest else rest
  else c :: stack

/-- Whether a path is absolute (starts with a slash). -/
def isRooted (p : String) : Bool :=
  match p.data with
  | '/' :: _ => true
  | _ => false

/-- Split a character list at every occurrence of `sep` (like Go
`strings.Split` with a one-character separator). -/
def splitChar (sep : Char) : List Char → List (List Char)
  | [] => [[]]
  | c :: rest =>
    if c = sep then [] :: splitChar sep rest
    else
      match splitChar sep rest with
      | [] => [[c]]
      | g :: gs => (c :: g) :: gs

/-- The slash-separated components of a path. -/
def pathComponents (p : String) : List String :=
  (splitChar '/' p.data).map String.mk

/-- Go `path/filepath.Clean` (Unix): resolve `.` and `..` components and
collapse repeated or trailing slashes. -/
def pathClean (p : String) : String :=
  if p = "" then "."
  else
    let rooted := isRooted p
    let stack := (pathComponents p).foldl (cleanPush rooted) []
    let body := String.intercalate "/" stack.reverse
    if rooted then
      if body = "" then "/" else "/" ++ body
    else
      if body = "" then "." else body

/-- Go `path/filepath.Join`: join the non-empty elements with a slash and
`Clean` the result (empty elements only ever contribute repeated slashes,
which `Clean` removes, so filtering them first is equivalent). -/
def filepathJoin (elems : List String) : String :=
  let nonempty := elems.filter (fun e => e ≠ "")
  if nonempty.isEmpty then "" else pathClean (String.intercalate "/" nonempty)

/-! ## Association lists standing for Go maps

A Go `map[string]string` is a finite function; we keep it as an
association list with at most one entry per key.  Assignment `m[k] = v`
is a functional update.  Go maps are unordered, so the position of the
entry in the list carries no meaning; the one place the code iterates
over a map whose order matters (`Load`) is quantified over permutations.
-/

/-- Go map assignment `m[k] = v`: drop any existing entry for `k` and add
the new binding. -/
def insertAssoc (m : List (String × String)) (k v : String) : List (String × String) :=
  m.filter (fun p => p.1 ≠ k) ++ [(k, v)]

/-- Go map lookup `m[k]` (the binding written last wins; on the unique-key
lists built by `insertAssoc` there is at most one). -/
def lookupAssoc (m : List (String × String)) (k : String) : Option String :=
  m.foldl (fun acc p => if p.1 = k then some p.2 else acc) none

/-! ## Data model (`terraform.go` of the `aws/dump` command) -/

/-- `type Substitution struct { Old, New string }`. -/
structure Substitution where
  old : String
  new : String
deriving DecidableEq, Repr

/-- `type Options struct { PathSubstitutions []Substitution; Overwrite bool }`. -/
structure Options where
  pathSubstitutions : List Substitution
  overwrite : Bool
deriving DecidableEq, Repr

/-- `type S3Backend struct { Bucket string; Keys []string; Region,
RoleARN, ExternalID, SessionName string }`.  The credential fields are
opaque pass-through values never inspected by the pipeline. -/
structure S3Backend where
  bucket : String
  keys : List String
  region : String := ""
  roleARN : String := ""
  externalID : String := ""
  sessionName : String := ""
deriving DecidableEq, Repr

/-- Observable side effects of a pull, in the order they are performed:
`os.MkdirAll`, `os.OpenFile` (create-for-write), and one batched S3
retrieval (`DownloadWithIterator`) listing the object keys fetched. -/
inductive Eff where
  | mkdirAll (path : String)
  | openFile (path : String)
  | fetch (bucket : String) (keys : List String)
deriving DecidableEq, Repr

/-- Failure outcomes.  `configErr` models `errors.New` in `Verify`,
`fetchErr` a failed batched retrieval, `decodeErr` an error returned by
`statefile.Read` / `json.Unmarshal`, `openErr` a failed `os.Open`.
`panicNilDeref` and `panicTypeAssert` model Go panics (nil-pointer
dereference, failed type assertion): they abort the process rather than
being returned, and are kept distinct from returned errors. -/
inductive GoErr where
  | configErr (msg : String)
  | fetchErr (bucket : String)
  | decodeErr (what : String)
  | openErr (path : String)
  | panicNilDeref
  | panicTypeAssert
deriving DecidableEq, Repr

/-! ## `S3Backend.Download` -/

/-- The per-key path rewrite in `Download`: `transformed := key` followed
by `strings.Replace` for each substitution, guarded by
`options != nil && options.PathSubstitutions != nil` (a nil slice ranges
as empty, so only the nil-options guard is semantically relevant). -/
def transformKey (options : Option Options) (key : String) : String :=
  match options with
  | none => key
  | some o => o.pathSubstitutions.foldl (fun t s => goReplace t s.old s.new) key

/-- The directory passed to `os.MkdirAll`:
`filepath.Join(destination, bucket, dir)` where
`dir, _ = filepath.Split(transformed)`. -/
def localDir (destination bucket : String) (options : Option Options) (key : String) : String :=
  filepathJoin [destination, bucket, (filepathSplit (transformKey options key)).1]

/-- The local destination file for an object key:
`filepath.Join(destination, bucket, dir, file)` where
`dir, file = filepath.Split(transformed)`. -/
def localPath (destination bucket : String) (options : Option Options) (key : String) : String :=
  let (dir, file) := filepathSplit (transformKey options key)
  filepathJoin [destination, bucket, dir, file]

/-- The canonical remote reference recorded for a key:
`fmt.Sprintf("arn:aws:s3:::%s/%s", bucket, key)`. -/
def remoteRef (bucket key : String) : String :=
  "arn:aws:s3:::" ++ bucket ++ "/" ++ key

/-- State threaded through the key loop of `Download`: the `filenames`
map, the `objects` batch (by object key), the filesystem, and the
effect log. -/
structure DlState where
  filenames : List (String × String)
  objects : List String
  fs : List String
  effs : List Eff
deriving Repr

/-- One iteration of the key loop of `Download` (lines 53–88): rewrite the
key, `MkdirAll` the directory, record the `filenames` entry
unconditionally, then either skip (destination exists and overwrite is
off — evaluating `options.Overwrite` panics if `options` is nil, which Go
only reaches when the file exists, because `!os.IsNotExist(err)` short-
circuits the conjunction otherwise) or open/create the file and enqueue
the key for the batched download. -/
def processKey (bucket destination : String) (options : Option Options)
    (st : DlState) (key : String) : DlState × Option GoErr :=
  let filename := localPath destination bucket options key
  let st := { st with
    filenames := insertAssoc st.filenames filename (remoteRef bucket key),
    effs := st.effs ++ [Eff.mkdirAll (localDir destination bucket options key)] }
  if filename ∈ st.fs then
    match options with
    | none => (st, some .panicNilDeref)
    | some o =>
      if o.overwrite then
        ({ st with objects := st.objects ++ [key],
                   effs := st.effs ++ [Eff.openFile filename] }, none)
      else
        (st, none)
  else
    ({ st with objects := st.objects ++ [key],
               fs := st.fs ++ [filename],
               effs := st.effs ++ [Eff.openFile filename] }, none)

/-- The key loop of `Download`, stopping at the first fault. -/
def downloadLoop (bucket destination : String) (options : Option Options) :
    List String → DlState → DlState × Option GoErr
  | [], st => (st, none)
  | key :: rest, st =>
    match processKey bucket destination options st key with
    | (st', none) => downloadLoop bucket destination options rest st'
    | (st', some e) => (st', some e)

/-- Result of `Download`: the returned value (the `filenames` map, or an
error), together with the filesystem left behind and the effect log. -/
structure DlOut where
  result : Except GoErr (List (String × String))
  fs : List String
  effs : List Eff
deriving Repr

/-- `func (s3Backend *S3Backend) Download(destination string, options
*Options) (map[string]string, error)`.  `netOk` is the network oracle for
this backend's single batched retrieval; local directory creation and
file opening are modelled as always succeeding.  If no object was
enqueued, no batched retrieval is issued at all (`len(objects) > 0`). -/
def S3Backend.Download (b : S3Backend) (destination : String) (options : Option Options)
    (netOk : Bool) (fs : List String) : DlOut :=
  match downloadLoop b.bucket destination options b.keys ⟨[], [], fs, []⟩ with
  | (st, some e) => ⟨.error e, st.fs, st.effs⟩
  | (st, none) =>
    if st.objects.isEmpty then ⟨.ok st.filenames, st.fs, st.effs⟩
    else
      let effs := st.effs ++ [Eff.fetch b.bucket st.objects]
      if netOk then ⟨.ok st.filenames, st.fs, effs⟩
      else ⟨.error (.fetchErr b.bucket), st.fs, effs⟩

/-! ## `TerraformBackends`: `Verify` and `Pull` -/

/-- `type TerraformBackends struct { Destination string; Options *Options;
S3 []*S3Backend; StateFilenames map[string]string }`.  The nil-able
`Options` pointer is an `Option Options`. -/
structure TerraformBackends where
  destination : String
  options : Option Options
  s3 : List S3Backend
  stateFilenames : List (String × String) := []
deriving Repr

/-- `func (t *TerraformBackends) Verify() error` (the spec's
`Validate()`): reject an empty destination or an empty backend list;
substitute the default options (no substitutions, overwrite off) when the
options pointer is nil.  The receiver mutation is modelled by returning
the updated value. -/
def TerraformBackends.Verify (t : TerraformBackends) : Except GoErr TerraformBackends :=
  if t.destination.length = 0 then .error (.configErr "Destination field is empty")
  else if t.s3.length = 0 then .error (.configErr "s3 field is empty")
  else
    match t.options with
    | none => .ok { t with options := some ⟨[], false⟩ }
    | some _ => .ok t

/-- The backend loop of `Pull` (lines 136–144): download each backend in
configuration order, merging its `filenames` map into `StateFilenames`
(entries with unique keys, so the merge is order-independent), and stop
at the first error.  `net i` tells whether backend `i`'s batched
retrieval succeeds. -/
def pullLoop (destination : String) (options : Option Options) (net : Nat → Bool) :
    List S3Backend → Nat → List (String × String) → List String → List Eff →
    List (String × String) × List String × List Eff × Option GoErr
  | [], _, sf, fs, effs => (sf, fs, effs, none)
  | b :: rest, i, sf, fs, effs =>
    match (b.Download destination options (net i) fs).result with
    | .error e =>
      (sf, (b.Download destination options (net i) fs).fs,
        effs ++ (b.Download destination options (net i) fs).effs, some e)
    | .ok filenames =>
      pullLoop destination options net rest (i + 1)
        (filenames.foldl (fun m p => insertAssoc m p.1 p.2) sf)
        (b.Download destination options (net i) fs).fs
        (effs ++ (b.Download destination options (net i) fs).effs)

/-- Result of `Pull`: the (possibly updated) receiver, the returned
error value, the filesystem left behind and the effect log. -/
structure PullOut where
  t : TerraformBackends
  result : Except GoErr Unit
  fs : List String
  effs : List Eff
deriving Repr

/-- `func (t *TerraformBackends) Pull() error`: on a `Verify` failure it
returns `nil` immediately (the error is swallowed) without touching
anything; otherwise it resets `StateFilenames` to an empty map and runs
the backend loop, propagating its first error. -/
def TerraformBackends.Pull (t : TerraformBackends) (net : Nat → Bool) (fs : List String) :
    PullOut :=
  match t.Verify with
  | .error _ => ⟨t, .ok (), fs, []⟩
  | .ok t' =>
    match pullLoop t'.destination t'.options net t'.s3 0 [] fs [] with
    | (sf, fs', effs, some e) => ⟨{ t' with stateFilenames := sf }, .error e, fs', effs⟩
    | (sf, fs', effs, none) => ⟨{ t' with stateFilenames := sf }, .ok (), fs', effs⟩

/-! ## The state decoder (`LoadStateFromFile`)

The Go code walks `stateFile.State.Modules[].Resources[].Instances[]`
(types from `hashicorp/terraform/states/statefile`), skips instances with
no `Current` generation, `json.Unmarshal`s the instance's `AttrsJSON`
blob into a `map[string]interface{}`, and reads the `id` and `arn`
attributes with unchecked type assertions.  We embed a state document at
the post-parse level: an attribute blob is either `malformed` (the inner
`json.Unmarshal` fails) or a parsed key/value list. -/

/-- A decoded JSON attribute value as seen through Go's
`map[string]interface{}`: a string, JSON `null` (a nil interface value),
or any non-string value. -/
inductive GoVal where
  | vstr (s : String)
  | vnull
  | vother
deriving DecidableEq, Repr

/-- The outcome of `json.Unmarshal` on an instance's `AttrsJSON` blob. -/
inductive Attrs where
  | malformed
  | parsed (kvs : List (String × GoVal))
deriving DecidableEq, Repr

/-- A state-file resource instance: `Current` is nil for instances with
no live generation. -/
structure TfInstance where
  current : Option Attrs
deriving DecidableEq, Repr

/-- A state-file resource: its declared type (`resource.Addr.Type`) and
its instances. -/
structure TfResource where
  type : String
  instances : List TfInstance
deriving DecidableEq, Repr

/-- A state-file module. -/
structure TfModule where
  resources : List TfResource
deriving DecidableEq, Repr

/-- A parsed state document (`stateFile.State`). -/
structure StateDoc where
  modules : List TfModule
deriving DecidableEq, Repr

/-- The fields of `resources.Resource` read by this pipeline (the full
struct also carries account, service, type, region and metadata fields
that `LoadStateFromFile` leaves at their zero values). -/
structure Resource where
  ID : String
  ARN : String := ""
deriving DecidableEq, Repr

/-- Modelled from the spec: `resources.Resource.UniqueID()` is defined in
the `aws/dump/resources` package, which is not among the provided source
files.  Per the spec, "Identity for indexing purposes is the identifier
field alone", so `UniqueID` is the `ID` field. -/
def Resource.UniqueID (r : Resource) : String := r.ID

/-- Lookup in a decoded `map[string]interface{}`: a missing key yields
the nil interface value (`none`); duplicate JSON keys keep the last
value, as `json.Unmarshal` does. -/
def lookupVal (kvs : List (String × GoVal)) (k : String) : Option GoVal :=
  kvs.foldl (fun acc p => if p.1 = k then some p.2 else acc) none

/-- The resource types retained without an `arn` attribute (the empty
`case` arms of the `switch` on `resource.Addr.Type`). -/
def arnlessTypes : List String :=
  ["aws_iam_access_key", "aws_route53_record", "aws_route53_zone"]

/-- Decoding of one live instance's parsed attribute blob (lines
212–228).  `decoded["id"].(string)` panics unless `id` is present and a
string; then, if `decoded["arn"] == nil` (absent key or JSON null), the
resource is kept with an empty ARN only when its type is allow-listed
(`.ok none` models the `continue` that drops it); otherwise
`decoded["arn"].(string)` panics unless `arn` is a string. -/
def decodeAttrs (resType : String) (kvs : List (String × GoVal)) :
    Except GoErr (Option Resource) :=
  match lookupVal kvs "id" with
  | some (.vstr id) =>
    match lookupVal kvs "arn" with
    | none | some .vnull =>
      if resType ∈ arnlessTypes then .ok (some ⟨id, ""⟩) else .ok none
    | some (.vstr arn) => .ok (some ⟨id, arn⟩)
    | some .vother => .error .panicTypeAssert
  | _ => .error .panicTypeAssert

/-- The instance loop: skip instances with no `Current` generation; a
malformed attribute blob makes the whole document's decode return the
output accumulated so far together with the `json.Unmarshal` error. -/
def walkInstances (resType : String) (output : List Resource) :
    List TfInstance → List Resource × Option GoErr
  | [] => (output, none)
  | inst :: rest =>
    match inst.current with
    | none => walkInstances resType output rest
    | some .malformed => (output, some (.decodeErr "attrs_json"))
    | some (.parsed kvs) =>
      match decodeAttrs resType kvs with
      | .error e => (output, some e)
      | .ok none => walkInstances resType output rest
      | .ok (some r) => walkInstances resType (output ++ [r]) rest

/-- The resource loop. -/
def walkResources (output : List Resource) :
    List TfResource → List Resource × Option GoErr
  | [] => (output, none)
  | res :: rest =>
    match walkInstances res.type output res.instances with
    | (output', none) => walkResources output' rest
    | (output', some e) => (output', some e)

/-- The module loop. -/
def walkModules (output : List Resource) :
    List TfModule → List Resource × Option GoErr
  | [] => (output, none)
  | m :: rest =>
    match walkResources output m.resources with
    | (output', none) => walkModules output' rest
    | (output', some e) => (output', some e)

/-- What the decoder finds at a path: no file (`os.Open` fails), a file
`statefile.Read` rejects, or a parsed state document. -/
inductive FileContent where
  | absent
  | unreadable
  | state (doc : StateDoc)
deriving Repr

/-- `func LoadStateFromFile(filename string) ([]*resources.Resource,
error)`: like the Go function it returns both the resources decoded so
far and the error, if any (`disk` stands for the filesystem contents). -/
def LoadStateFromFile (disk : String → FileContent) (filename : String) :
    List Resource × Option GoErr :=
  match disk filename with
  | .absent => ([], some (.openErr filename))
  | .unreadable => ([], some (.decodeErr filename))
  | .state doc => walkModules [] doc.modules

/-! ## `TerraformBackends.Load` -/

/-- `type ResourceMap map[string]string`. -/
def ResourceMap := List (String × String)

/-- The file loop of `Load` (lines 153–161): for each `StateFilenames`
entry, a decode that returns an error is skipped (`continue`) and the
file contributes nothing; otherwise every decoded resource is written
into the index under its `UniqueID()`.  A panic inside
`LoadStateFromFile` (modelled as a `panic*` outcome) aborts the whole
process and is propagated as `.error`. -/
def loadLoop (disk : String → FileContent) :
    List (String × String) → List (String × String) → Except GoErr (List (String × String))
  | [], managed => .ok managed
  | (filename, s3) :: rest, managed =>
    match LoadStateFromFile disk filename with
    | (_, some .panicTypeAssert) => .error .panicTypeAssert
    | (_, some .panicNilDeref) => .error .panicNilDeref
    | (_, some _) => loadLoop disk rest managed
    | (rs, none) =>
      loadLoop disk rest (rs.foldl (fun m r => insertAssoc m r.UniqueID s3) managed)

/-- `func (t *TerraformBackends) Load() (ResourceMap, error)`: ranges
over the `StateFilenames` Go map, whose iteration order is unspecified;
`order` is the iteration order actually taken, constrained in the
theorems to be a permutation of `t.stateFilenames`.  The Go function can
only ever return a nil error. -/
def TerraformBackends.Load (t : TerraformBackends) (disk : String → FileContent)
    (order : List (String × String)) : Except GoErr (List (String × String)) :=
  loadLoop disk order []

/-! ## Lemmas about the Go-map model -/

theorem foldl_lookup_filter_ne (m : List (String × String)) (k k' : String) (h : k' ≠ k) :
    ∀ acc : Option String,
      (m.filter (fun p => p.1 ≠ k)).foldl (fun acc p => if p.1 = k' then some p.2 else acc) acc
        = m.foldl (fun acc p => if p.1 = k' then some p.2 else acc) acc := by
  induction m with
  | nil => intro acc; rfl
  | cons p m ih =>
    intro acc
    rw [List.filter_cons]
    by_cases hp : p.1 = k
    · have hd : (decide (p.1 ≠ k)) = false := by simp [hp]
      rw [hd]
      have hstep : (if p.1 = k' then some p.2 else acc) = acc := by
        rw [if_neg]; rw [hp]; exact fun hh => h hh.symm
      simp only [Bool.false_eq_true, if_false, List.foldl_cons, hstep, ih]
    · have hd : (decide (p.1 ≠ k)) = true := by simp [hp]
      rw [hd]
      simp only [if_true, List.foldl_cons, ih]

/-- Go map assignment then lookup: the new binding is found under its
key, all other keys are unchanged. -/
theorem lookupAssoc_insertAssoc (m : List (String × String)) (k v k' : String) :
    lookupAssoc (insertAssoc m k v) k' = if k' = k then some v else lookupAssoc m k' := by
  unfold insertAssoc lookupAssoc
  rw [List.foldl_append]
  simp only [List.foldl_cons, List.foldl_nil]
  by_cases h : k' = k
  · simp [h]
  · have h' : ¬ k = k' := fun hh => h hh.symm
    simp only [if_neg h, if_neg h']
    exact foldl_lookup_filter_ne m k k' h none

/-- Go map assignment keeps the keys without duplicates. -/
theorem keysNodup_insertAssoc (m : List (String × String)) (k v : String)
    (h : (m.map Prod.fst).Nodup) : ((insertAssoc m k v).map Prod.fst).Nodup := by
  unfold insertAssoc
  rw [List.map_append]
  have hsub : ((m.filter (fun p => p.1 ≠ k)).map Prod.fst).Sublist (m.map Prod.fst) :=
    (List.filter_sublist m).map Prod.fst
  have hnd : ((m.filter (fun p => p.1 ≠ k)).map Prod.fst).Nodup := h.sublist hsub
  have hk : k ∉ (m.filter (fun p => p.1 ≠ k)).map Prod.fst := by
    intro hkmem
    obtain ⟨p, hp, hpk⟩ := List.mem_map.mp hkmem
    have h2 := List.of_mem_filter hp
    simp only [decide_eq_true_eq] at h2
    exact h2 hpk
  refine List.nodup_append.mpr ⟨hnd, ?_, ?_⟩
  · simp
  · intro a ha hb
    simp only [List.map_cons, List.map_nil, List.mem_singleton] at hb
    subst hb
    exact hk ha

/-- Writing a file's resources into the index under a single backend
reference: an identifier carried by one of the resources ends up mapped
to that reference, all other identifiers are untouched. -/
theorem lookupAssoc_foldl_insert (rs : List Resource) (s3 : String) :
    ∀ (m : List (String × String)) (id : String),
      lookupAssoc (rs.foldl (fun m r => insertAssoc m r.UniqueID s3) m) id
        = if rs.any (fun r => r.UniqueID = id) then some s3 else lookupAssoc m id := by
  induction rs with
  | nil => intro m id; simp
  | cons r rs ih =>
    intro m id
    simp only [List.foldl_cons, List.any_cons]
    rw [ih]
    by_cases h1 : rs.any (fun r => r.UniqueID = id) = true
    · simp [h1]
    · simp only [Bool.not_eq_true] at h1
      simp only [h1, Bool.or_false, Bool.false_eq_true, if_false]
      by_cases h2 : r.UniqueID = id
      · rw [lookupAssoc_insertAssoc, if_pos h2.symm]
        have h2d : (decide (r.UniqueID = id)) = true := by simp [h2]
        simp [h2d]
      · rw [lookupAssoc_insertAssoc, if_neg (fun hh => h2 hh.symm)]
        have h2d : (decide (r.UniqueID = id)) = false := by simp [h2]
        simp [h2d]

/-- Unfolding equation for one `loadLoop` step. -/
theorem loadLoop_cons (disk : String → FileContent) (filename s3 : String)
    (rest acc : List (String × String)) :
    loadLoop disk ((filename, s3) :: rest) acc =
      match LoadStateFromFile disk filename with
      | (_, some .panicTypeAssert) => .error .panicTypeAssert
      | (_, some .panicNilDeref) => .error .panicNilDeref
      | (_, some _) => loadLoop disk rest acc
      | (rs, none) =>
        loadLoop disk rest (rs.foldl (fun m r => insertAssoc m r.UniqueID s3) acc) := rfl

/-- `loadLoop` splits over list concatenation (processing stops at the
first panic, which propagates as the error). -/
theorem loadLoop_append (disk : String → FileContent) (xs ys : List (String × String)) :
    ∀ acc, loadLoop disk (xs ++ ys) acc =
      match loadLoop disk xs acc with
      | .ok acc' => loadLoop disk ys acc'
      | .error e => .error e := by
  induction xs with
  | nil => intro acc; rfl
  | cons x xs ih =>
    intro acc
    obtain ⟨filename, s3⟩ := x
    rw [List.cons_append, loadLoop_cons, loadLoop_cons]
    rcases hf : LoadStateFromFile disk filename with ⟨rs, err⟩
    match err with
    | some .panicTypeAssert => rfl
    | some .panicNilDeref => rfl
    | some (.configErr m) => exact ih _
    | some (.fetchErr m) => exact ih _
    | some (.decodeErr m) => exact ih _
    | some (.openErr m) => exact ih _
    | none => exact ih _

/-- Whether a `StateFilenames` entry contributes the identifier `id` to
the index: its file decodes without error and one of its resources has
that `UniqueID`. -/
def contributesID (disk : String → FileContent) (entry : String × String) (id : String) : Bool :=
  match LoadStateFromFile disk entry.1 with
  | (rs, none) => rs.any (fun r => r.UniqueID = id)
  | (_, some _) => false

/-- Entries that do not contribute `id` leave the index entry for `id`
unchanged. -/
theorem loadLoop_no_contrib (disk : String → FileContent) (id : String) :
    ∀ (xs : List (String × String)) (acc m : List (String × String)),
      (∀ e ∈ xs, contributesID disk e id = false) →
      loadLoop disk xs acc = .ok m →
      lookupAssoc m id = lookupAssoc acc id := by
  intro xs
  induction xs with
  | nil =>
    intro acc m _ hok
    simp only [loadLoop] at hok
    cases hok
    rfl
  | cons x xs ih =>
    intro acc m hnc hok
    obtain ⟨filename, s3⟩ := x
    unfold loadLoop at hok
    have hx := hnc (filename, s3) (List.mem_cons_self _ _)
    unfold contributesID at hx
    rcases hf : LoadStateFromFile disk filename with ⟨rs, err⟩
    rw [hf] at hok hx
    match err with
    | some .panicTypeAssert => simp at hok
    | some .panicNilDeref => simp at hok
    | some (.configErr msg) | some (.fetchErr msg) | some (.decodeErr msg)
    | some (.openErr msg) =>
      exact ih acc m (fun e he => hnc e (List.mem_cons_of_mem _ he)) hok
    | none =>
      have := ih _ m (fun e he => hnc e (List.mem_cons_of_mem _ he)) hok
      rw [this, lookupAssoc_foldl_insert]
      simp only at hx
      simp [hx]

/-- An entry that contributes `id`, once processed, leaves the index
mapping `id` to its backend reference. -/
theorem loadLoop_single_contrib (disk : String → FileContent) (id : String)
    (e : String × String) (acc m : List (String × String))
    (hc : contributesID disk e id = true)
    (hok : loadLoop disk [e] acc = .ok m) :
    lookupAssoc m id = some e.2 := by
  obtain ⟨filename, s3⟩ := e
  unfold contributesID at hc
  unfold loadLoop at hok
  rcases hf : LoadStateFromFile disk filename with ⟨rs, err⟩
  rw [hf] at hok hc
  match err with
  | some .panicTypeAssert => simp at hc
  | some .panicNilDeref => simp at hc
  | some (.configErr msg) | some (.fetchErr msg) | some (.decodeErr msg)
  | some (.openErr msg) => simp at hc
  | none =>
    simp only [loadLoop] at hok
    cases hok
    rw [lookupAssoc_foldl_insert]
    simp only at hc
    simp [hc]

/-- `Load` can only fail by panicking inside the decoder: if no file's
decode panics, it returns an index (the Go function always returns a nil
error). -/
theorem loadLoop_ok_of_no_panic (disk : String → FileContent) :
    ∀ (xs : List (String × String)) (acc : List (String × String)),
      (∀ e ∈ xs, (LoadStateFromFile disk e.1).2 ≠ some .panicTypeAssert ∧
                 (LoadStateFromFile disk e.1).2 ≠ some .panicNilDeref) →
      ∃ m, loadLoop disk xs acc = .ok m := by
  intro xs
  induction xs with
  | nil => intro acc _; exact ⟨acc, rfl⟩
  | cons x xs ih =>
    intro acc hnp
    obtain ⟨filename, s3⟩ := x
    have hx := hnp (filename, s3) (List.mem_cons_self _ _)
    unfold loadLoop
    rcases hf : LoadStateFromFile disk filename with ⟨rs, err⟩
    rw [hf] at hx
    match err with
    | some .panicTypeAssert => exact absurd rfl hx.1
    | some .panicNilDeref => exact absurd rfl hx.2
    | some (.configErr msg) | some (.fetchErr msg) | some (.decodeErr msg)
    | some (.openErr msg) =>
      exact ih acc (fun e he => hnp e (List.mem_cons_of_mem _ he))
    | none =>
      exact ih _ (fun e he => hnp e (List.mem_cons_of_mem _ he))

/-! ## Lemmas about `Download` -/

/-- Every branch of the key loop records the `filenames` entry: the map
update happens before the exists/overwrite decision. -/
theorem processKey_filenames (bucket destination : String) (options : Option Options)
    (st : DlState) (key : String) :
    (processKey bucket destination options st key).1.filenames =
      insertAssoc st.filenames (localPath destination bucket options key)
        (remoteRef bucket key) := by
  cases options with
  | none =>
    by_cases h : localPath destination bucket none key ∈ st.fs <;>
      simp [processKey, h]
  | some o =>
    by_cases h : localPath destination bucket (some o) key ∈ st.fs
    · by_cases ho : o.overwrite <;> simp [processKey, h, ho]
    · simp [processKey, h]

/-- With non-nil options the key loop body never faults. -/
theorem processKey_some_none (bucket destination : String) (o : Options)
    (st : DlState) (key : String) :
    (processKey bucket destination (some o) st key).2 = none := by
  by_cases h : localPath destination bucket (some o) key ∈ st.fs
  · by_cases ho : o.overwrite <;> simp [processKey, h, ho]
  · simp [processKey, h]

/-- The key loop only ever creates files: everything on disk before a
`processKey` step is still on disk after it. -/
theorem processKey_fs_mono (bucket destination : String) (options : Option Options)
    (st : DlState) (key p : String) (hp : p ∈ st.fs) :
    p ∈ (processKey bucket destination options st key).1.fs := by
  cases options with
  | none =>
    by_cases h : localPath destination bucket none key ∈ st.fs <;>
      simp [processKey, h, hp]
  | some o =>
    by_cases h : localPath destination bucket (some o) key ∈ st.fs
    · by_cases ho : o.overwrite <;> simp [processKey, h, ho, hp]
    · simp [processKey, h, hp]

/-- `downloadLoop` only ever creates files. -/
theorem downloadLoop_fs_mono (bucket destination : String) (options : Option Options) :
    ∀ (keys : List String) (st : DlState) (p : String), p ∈ st.fs →
      p ∈ (downloadLoop bucket destination options keys st).1.fs := by
  intro keys
  induction keys with
  | nil => intro st p hp; exact hp
  | cons key keys ih =>
    intro st p hp
    unfold downloadLoop
    rcases hk : processKey bucket destination options st key with ⟨st', err⟩
    have hp' : p ∈ st'.fs := by
      have h2 := processKey_fs_mono bucket destination options st key p hp
      rw [hk] at h2; exact h2
    cases err with
    | none => exact ih st' p hp'
    | some e => exact hp'

/-- `Download` only ever creates files: the initial filesystem survives,
whether the call succeeds or fails. -/
theorem Download_fs_mono (b : S3Backend) (destination : String) (options : Option Options)
    (netOk : Bool) (fs : List String) (p : String) (hp : p ∈ fs) :
    p ∈ (b.Download destination options netOk fs).fs := by
  unfold S3Backend.Download
  rcases hk : downloadLoop b.bucket destination options b.keys ⟨[], [], fs, []⟩ with ⟨st, err⟩
  have hp' : p ∈ st.fs := by
    have h2 := downloadLoop_fs_mono b.bucket destination options b.keys ⟨[], [], fs, []⟩ p hp
    rw [hk] at h2; exact h2
  cases err with
  | some e => exact hp'
  | none =>
    by_cases hobj : st.objects.isEmpty
    · simp [hobj, hp']
    · cases netOk <;> simp [hobj, hp']

/-- The key loop keeps the `filenames` keys duplicate-free. -/
theorem downloadLoop_filenames_nodup (bucket destination : String) (options : Option Options) :
    ∀ (keys : List String) (st : DlState), (st.filenames.map Prod.fst).Nodup →
      (((downloadLoop bucket destination options keys st).1).filenames.map Prod.fst).Nodup := by
  intro keys
  induction keys with
  | nil => intro st h; exact h
  | cons key keys ih =>
    intro st h
    unfold downloadLoop
    rcases hk : processKey bucket destination options st key with ⟨st', err⟩
    have h' : (st'.filenames.map Prod.fst).Nodup := by
      have h2 := processKey_filenames bucket destination options st key
      rw [hk] at h2
      rw [h2]
      exact keysNodup_insertAssoc _ _ _ h
    cases err with
    | none => exact ih st' h'
    | some e => exact h'

/-- The map returned by a successful `Download` has duplicate-free keys
(it is a Go map). -/
theorem Download_filenames_nodup (b : S3Backend) (destination : String)
    (options : Option Options) (netOk : Bool) (fs : List String)
    (m : List (String × String)) (h : (b.Download destination options netOk fs).result = .ok m) :
    (m.map Prod.fst).Nodup := by
  unfold S3Backend.Download at h
  rcases hk : downloadLoop b.bucket destination options b.keys ⟨[], [], fs, []⟩ with ⟨st, err⟩
  rw [hk] at h
  have hnd : (st.filenames.map Prod.fst).Nodup := by
    have h2 := downloadLoop_filenames_nodup b.bucket destination options b.keys
      ⟨[], [], fs, []⟩ (by simp)
    rw [hk] at h2; exact h2
  cases err with
  | some e => simp at h
  | none =>
    by_cases hobj : st.objects.isEmpty
    · simp [hobj] at h
      rw [← h]; exact hnd
    · cases netOk
      · simp [hobj] at h
      · simp [hobj] at h
        rw [← h]; exact hnd

/-- With non-nil options the key loop never faults. -/
theorem downloadLoop_some_none (bucket destination : String) (o : Options) :
    ∀ (keys : List String) (st : DlState),
      (downloadLoop bucket destination (some o) keys st).2 = none := by
  intro keys
  induction keys with
  | nil => intro st; rfl
  | cons key keys ih =>
    intro st
    unfold downloadLoop
    rcases hk : processKey bucket destination (some o) st key with ⟨st', err⟩
    have h2 := processKey_some_none bucket destination o st key
    rw [hk] at h2
    simp only [] at h2
    subst h2
    exact ih st'

/-- With non-nil options `Download` either returns a map or fails with
this backend's batched-retrieval error; in particular it never panics. -/
theorem Download_some_result (b : S3Backend) (destination : String) (o : Options)
    (netOk : Bool) (fs : List String) :
    (∃ m, (b.Download destination (some o) netOk fs).result = .ok m) ∨
      (b.Download destination (some o) netOk fs).result = .error (.fetchErr b.bucket) := by
  unfold S3Backend.Download
  rcases hk : downloadLoop b.bucket destination (some o) b.keys ⟨[], [], fs, []⟩ with ⟨st, err⟩
  have h2 := downloadLoop_some_none b.bucket destination o b.keys ⟨[], [], fs, []⟩
  rw [hk] at h2
  simp only [] at h2
  subst h2
  by_cases hobj : st.objects.isEmpty
  · simp [hobj]
  · cases netOk <;> simp [hobj]

/-! ## Presence of keys in folded Go maps -/

theorem foldl_lookup_ne_none (m : List (String × String)) (k : String) :
    ∀ acc : Option String,
      m.foldl (fun acc p => if p.1 = k then some p.2 else acc) acc ≠ none ↔
        (k ∈ m.map Prod.fst ∨ acc ≠ none) := by
  induction m with
  | nil => intro acc; simp
  | cons p m ih =>
    intro acc
    rw [List.foldl_cons, ih]
    by_cases hp : p.1 = k
    · simp [hp, eq_comm]
    · have hp' : ¬ k = p.1 := fun hh => hp hh.symm
      simp [hp, hp', or_assoc]

/-- A key is bound in the map exactly when it is among the keys. -/
theorem lookupAssoc_ne_none_iff (m : List (String × String)) (k : String) :
    lookupAssoc m k ≠ none ↔ k ∈ m.map Prod.fst := by
  unfold lookupAssoc
  rw [foldl_lookup_ne_none]
  simp

/-- Go map assignment never unbinds a key. -/
theorem lookupAssoc_insert_pres (m : List (String × String)) (k v k' : String)
    (h : lookupAssoc m k' ≠ none) : lookupAssoc (insertAssoc m k v) k' ≠ none := by
  rw [lookupAssoc_insertAssoc]
  by_cases hk : k' = k
  · simp [hk]
  · simpa [hk] using h

/-- A fold of Go map assignments never unbinds a key. -/
theorem lookupAssoc_foldl_ins_pres {α : Type} (f g : α → String) :
    ∀ (l : List α) (m : List (String × String)) (k' : String),
      lookupAssoc m k' ≠ none →
      lookupAssoc (l.foldl (fun m x => insertAssoc m (f x) (g x)) m) k' ≠ none := by
  intro l
  induction l with
  | nil => intro m k' h; exact h
  | cons x l ih =>
    intro m k' h
    exact ih _ k' (lookupAssoc_insert_pres m (f x) (g x) k' h)

/-- After folding Go map assignments for every element of a list, every
element's key is bound. -/
theorem lookupAssoc_foldl_ins_mem {α : Type} (f g : α → String) :
    ∀ (l : List α) (m : List (String × String)) (x0 : α), x0 ∈ l →
      lookupAssoc (l.foldl (fun m x => insertAssoc m (f x) (g x)) m) (f x0) ≠ none := by
  intro l
  induction l with
  | nil => intro m x0 h; simp at h
  | cons x l ih =>
    intro m x0 h
    rw [List.foldl_cons]
    rcases List.mem_cons.mp h with h | h
    · subst h
      apply lookupAssoc_foldl_ins_pres
      rw [lookupAssoc_insertAssoc]
      simp
    · exact ih _ x0 h

/-! ## The skip path of `Download` (destination already present) -/

/-- When the destination file exists and overwrite is off, the key is
skipped: only the `MkdirAll` effect and the map entry happen. -/
theorem processKey_skip (bucket destination : String) (o : Options) (st : DlState)
    (key : String) (hk : localPath destination bucket (some o) key ∈ st.fs)
    (how : o.overwrite = false) :
    processKey bucket destination (some o) st key =
      ({ st with
          filenames := insertAssoc st.filenames (localPath destination bucket (some o) key)
            (remoteRef bucket key),
          effs := st.effs ++ [Eff.mkdirAll (localDir destination bucket (some o) key)] },
        none) := by
  simp [processKey, hk, how]

/-- With overwrite off and every destination file already present, the
key loop records all map entries and directory creations but enqueues no
object and touches no file. -/
theorem downloadLoop_all_exist (bucket destination : String) (o : Options)
    (how : o.overwrite = false) :
    ∀ (keys : List String) (st : DlState),
      (∀ key ∈ keys, localPath destination bucket (some o) key ∈ st.fs) →
      downloadLoop bucket destination (some o) keys st =
        ({ st with
            filenames := keys.foldl (fun m key =>
              insertAssoc m (localPath destination bucket (some o) key)
                (remoteRef bucket key)) st.filenames,
            effs := st.effs ++ keys.map (fun key =>
              Eff.mkdirAll (localDir destination bucket (some o) key)) }, none) := by
  intro keys
  induction keys with
  | nil => intro st _; simp [downloadLoop]
  | cons key keys ih =>
    intro st hall
    have hk : localPath destination bucket (some o) key ∈ st.fs :=
      hall key (List.mem_cons_self _ _)
    unfold downloadLoop
    rw [processKey_skip bucket destination o st key hk how]
    dsimp only
    rw [ih { st with
        filenames := insertAssoc st.filenames (localPath destination bucket (some o) key)
          (remoteRef bucket key),
        effs := st.effs ++ [Eff.mkdirAll (localDir destination bucket (some o) key)] }
      (fun k hk2 => hall k (List.mem_cons_of_mem _ hk2))]
    simp [List.append_assoc]

/-- `Download` against a fully fetched destination with overwrite off:
the full map is returned, the filesystem is untouched, and the only
effects are directory creations — in particular no batched retrieval is
issued. -/
theorem Download_all_exist (b : S3Backend) (destination : String) (o : Options)
    (how : o.overwrite = false) (netOk : Bool) (fs : List String)
    (hall : ∀ key ∈ b.keys, localPath destination b.bucket (some o) key ∈ fs) :
    b.Download destination (some o) netOk fs =
      ⟨.ok (b.keys.foldl (fun m key =>
          insertAssoc m (localPath destination b.bucket (some o) key)
            (remoteRef b.bucket key)) []),
        fs,
        b.keys.map (fun key => Eff.mkdirAll (localDir destination b.bucket (some o) key))⟩ := by
  unfold S3Backend.Download
  rw [downloadLoop_all_exist b.bucket destination o how b.keys ⟨[], [], fs, []⟩ hall]
  simp

/-- The backend loop against a fully fetched destination with overwrite
off: no error, the filesystem untouched, only directory-creation
effects, previously recorded map entries kept, and an entry recorded for
every configured object of every backend. -/
theorem pullLoop_all_exist (destination : String) (o : Options) (how : o.overwrite = false)
    (net : Nat → Bool) :
    ∀ (bs : List S3Backend) (i : Nat) (sf : List (String × String)) (fs : List String)
      (effs : List Eff),
      (∀ b ∈ bs, ∀ key ∈ b.keys, localPath destination b.bucket (some o) key ∈ fs) →
      ∃ sf' effs',
        pullLoop destination (some o) net bs i sf fs effs = (sf', fs, effs ++ effs', none) ∧
        (∀ e ∈ effs', ∃ p, e = Eff.mkdirAll p) ∧
        (∀ k, lookupAssoc sf k ≠ none → lookupAssoc sf' k ≠ none) ∧
        (∀ b ∈ bs, ∀ key ∈ b.keys,
          lookupAssoc sf' (localPath destination b.bucket (some o) key) ≠ none) := by
  intro bs
  induction bs with
  | nil =>
    intro i sf fs effs _
    exact ⟨sf, [], by simp [pullLoop], by simp, fun k h => h, by simp⟩
  | cons b bs ih =>
    intro i sf fs effs hall
    have hb : ∀ key ∈ b.keys, localPath destination b.bucket (some o) key ∈ fs :=
      fun key hk => hall b (List.mem_cons_self _ _) key hk
    unfold pullLoop
    rw [Download_all_exist b destination o how (net i) fs hb]
    simp only []
    obtain ⟨sf', effs', heq, hmk, hpres, hcov⟩ :=
      ih (i + 1)
        ((b.keys.foldl (fun m key =>
          insertAssoc m (localPath destination b.bucket (some o) key)
            (remoteRef b.bucket key)) []).foldl (fun m p => insertAssoc m p.1 p.2) sf)
        fs
        (effs ++ b.keys.map (fun key => Eff.mkdirAll (localDir destination b.bucket (some o) key)))
        (fun b' hb' key hk => hall b' (List.mem_cons_of_mem _ hb') key hk)
    refine ⟨sf',
      b.keys.map (fun key => Eff.mkdirAll (localDir destination b.bucket (some o) key)) ++ effs',
      ?_, ?_, ?_, ?_⟩
    · rw [heq, List.append_assoc]
    · intro e he
      rcases List.mem_append.mp he with he | he
      · obtain ⟨key, _, hkey⟩ := List.mem_map.mp he
        exact ⟨_, hkey.symm⟩
      · exact hmk e he
    · intro k h
      exact hpres k (lookupAssoc_foldl_ins_pres Prod.fst Prod.snd _ sf k h)
    · intro b' hb' key hk
      rcases List.mem_cons.mp hb' with hcase | hcase
      · subst hcase
        apply hpres
        have hin : lookupAssoc (b'.keys.foldl (fun m key =>
            insertAssoc m (localPath destination b'.bucket (some o) key)
              (remoteRef b'.bucket key)) []) (localPath destination b'.bucket (some o) key) ≠ none :=
          lookupAssoc_foldl_ins_mem
            (fun key => localPath destination b'.bucket (some o) key)
            (fun key => remoteRef b'.bucket key) b'.keys [] key hk
        rw [lookupAssoc_ne_none_iff] at hin
        obtain ⟨pr, hpr, hfst⟩ := List.mem_map.mp hin
        have := lookupAssoc_foldl_ins_mem Prod.fst Prod.snd _ sf pr hpr
        rw [hfst] at this
        exact this
      · exact hcov b' hcase key hk

/-! ## Fail-fast structure of the backend loop -/

/-- The backend loop splits over list concatenation: if a prefix of the
backends completes without error, the loop continues with the rest; an
error stops it. -/
theorem pullLoop_split (destination : String) (options : Option Options) (net : Nat → Bool) :
    ∀ (bs1 bs2 : List S3Backend) (i : Nat) (sf : List (String × String)) (fs : List String)
      (effs : List Eff),
      pullLoop destination options net (bs1 ++ bs2) i sf fs effs =
        match pullLoop destination options net bs1 i sf fs effs with
        | (sf1, fs1, effs1, none) => pullLoop destination options net bs2 (i + bs1.length) sf1 fs1 effs1
        | (sf1, fs1, effs1, some e) => (sf1, fs1, effs1, some e) := by
  intro bs1
  induction bs1 with
  | nil => intro bs2 i sf fs effs; simp [pullLoop]
  | cons b bs1 ih =>
    intro bs2 i sf fs effs
    rw [List.cons_append]
    unfold pullLoop
    rcases hr : (b.Download destination options (net i) fs).result with e | filenames
    · rfl
    · dsimp only
      rw [ih]
      have harith : i + 1 + bs1.length = i + (b :: bs1).length := by
        simp [List.length_cons]; omega
      rw [harith]
      rcases hpl : pullLoop destination options net bs1 (i + 1)
          (filenames.foldl (fun m p => insertAssoc m p.1 p.2) sf)
          ((b.Download destination options (net i) fs).fs)
          (effs ++ (b.Download destination options (net i) fs).effs) with ⟨sf1, fs1, effs1, err⟩
      cases err with
      | none =>
        dsimp only
        cases bs2 with
        | nil => rfl
        | cons b2 rest2 => rfl
      | some e => rfl

/-- With non-nil options the backend loop can only stop with a
batched-retrieval error, never a nil-dereference panic. -/
theorem pullLoop_some_no_nil_panic (destination : String) (o : Options) (net : Nat → Bool) :
    ∀ (bs : List S3Backend) (i : Nat) (sf : List (String × String)) (fs : List String)
      (effs : List Eff),
      (pullLoop destination (some o) net bs i sf fs effs).2.2.2 ≠ some GoErr.panicNilDeref := by
  intro bs
  induction bs with
  | nil => intro i sf fs effs; simp [pullLoop]
  | cons b bs ih =>
    intro i sf fs effs
    unfold pullLoop
    rcases hr : (b.Download destination (some o) (net i) fs).result with e | filenames
    · have h2 := Download_some_result b destination o (net i) fs
      rw [hr] at h2
      rcases h2 with ⟨m, hm⟩ | hm
      · simp at hm
      · simp only [Except.error.injEq] at hm
        subst hm
        simp
    · exact ih _ _ _ _

/-- A successful `Verify` always leaves non-nil options, preserving the
other fields. -/
theorem Verify_ok_options (t t' : TerraformBackends) (h : t.Verify = .ok t') :
    (∃ o, t'.options = some o) ∧ t'.destination = t.destination ∧ t'.s3 = t.s3 := by
  unfold TerraformBackends.Verify at h
  by_cases h1 : t.destination.length = 0
  · simp [h1] at h
  · by_cases h2 : t.s3.length = 0
    · simp [h1, h2] at h
    · rcases ho : t.options with _ | o
      · simp [h1, h2, ho] at h
        rw [← h]
        exact ⟨⟨_, rfl⟩, rfl, rfl⟩
      · simp [h1, h2, ho] at h
        rw [← h]
        exact ⟨⟨o, ho⟩, rfl, rfl⟩

/-! ## The nil-options fault of `Download` -/

/-- With nil options, as soon as one key's destination file already
exists the key loop dereferences the nil options pointer and panics
(keys are processed in order; files created for earlier keys only add to
the filesystem, so an initially-present destination file is still
present when its key is reached). -/
theorem downloadLoop_none_panic (bucket destination : String) :
    ∀ (keys : List String) (st : DlState),
      (∃ key ∈ keys, localPath destination bucket none key ∈ st.fs) →
      (downloadLoop bucket destination none keys st).2 = some GoErr.panicNilDeref := by
  intro keys
  induction keys with
  | nil => intro st h; simp at h
  | cons key keys ih =>
    intro st hex
    unfold downloadLoop
    by_cases h : localPath destination bucket none key ∈ st.fs
    · have hpk : (processKey bucket destination none st key).2 = some GoErr.panicNilDeref := by
        simp [processKey, h]
      rcases hk : processKey bucket destination none st key with ⟨st1, err⟩
      rw [hk] at hpk
      simp only [] at hpk
      subst hpk
      rfl
    · rcases hk : processKey bucket destination none st key with ⟨st1, err⟩
      have herr : err = none := by
        have h2 : (processKey bucket destination none st key).2 = none := by
          simp [processKey, h]
        rw [hk] at h2; exact h2
      subst herr
      apply ih st1
      obtain ⟨k0, hk0mem, hk0fs⟩ := hex
      rcases List.mem_cons.mp hk0mem with hc | hc
      · subst hc; exact absurd hk0fs h
      · refine ⟨k0, hc, ?_⟩
        have h3 := processKey_fs_mono bucket destination none st key _ hk0fs
        rw [hk] at h3
        exact h3

/-- Calling `Download` with nil options when some configured key's
destination file already exists ends in the nil-dereference panic. -/
theorem Download_none_exists_panic (b : S3Backend) (destination : String) (netOk : Bool)
    (fs : List String) (hex : ∃ key ∈ b.keys, localPath destination b.bucket none key ∈ fs) :
    (b.Download destination none netOk fs).result = .error .panicNilDeref := by
  unfold S3Backend.Download
  rcases hk : downloadLoop b.bucket destination none b.keys ⟨[], [], fs, []⟩ with ⟨st, err⟩
  have h2 := downloadLoop_none_panic b.bucket destination b.keys ⟨[], [], fs, []⟩ hex
  rw [hk] at h2
  simp only [] at h2
  subst h2
  rfl

/-! ## The claims -/

/-- C2: for every configuration with an unset destination directory or an
empty backend list, `Verify` (the spec's `Validate`) fails with a
configuration error, and `Pull` on that configuration returns
successfully (`nil` error) while performing no work: no effects, the
filesystem untouched, the receiver unchanged. -/
theorem C2_invalid_config_pull_noop (t : TerraformBackends)
    (h : t.destination.length = 0 ∨ t.s3.length = 0) :
    (∃ msg, t.Verify = .error (.configErr msg)) ∧
    ∀ (net : Nat → Bool) (fs : List String), t.Pull net fs = ⟨t, .ok (), fs, []⟩ := by
  have hv : ∃ msg, t.Verify = .error (.configErr msg) := by
    rcases h with h | h
    · exact ⟨"Destination field is empty", by simp [TerraformBackends.Verify, h]⟩
    · by_cases hd : t.destination.length = 0
      · exact ⟨"Destination field is empty", by simp [TerraformBackends.Verify, hd]⟩
      · exact ⟨"s3 field is empty", by simp [TerraformBackends.Verify, hd, h]⟩
  obtain ⟨msg, hm⟩ := hv
  refine ⟨⟨msg, hm⟩, fun net fs => ?_⟩
  unfold TerraformBackends.Pull
  rw [hm]

/-- Witness for C2 at a concrete invalid configuration (empty
destination): `Pull` returns `nil`, writes nothing and fetches nothing. -/
theorem C2_invalid_config_pull_noop_witness :
    (({ destination := "", options := none, s3 := [{ bucket := "b", keys := ["k"] }] } :
        TerraformBackends).Pull (fun _ => true) ["x"]).effs = [] ∧
    (({ destination := "", options := none, s3 := [{ bucket := "b", keys := ["k"] }] } :
        TerraformBackends).Pull (fun _ => true) ["x"]).fs = ["x"] ∧
    (({ destination := "", options := none, s3 := [{ bucket := "b", keys := ["k"] }] } :
        TerraformBackends).Pull (fun _ => true) ["x"]).result = .ok () := by
  have h := C2_invalid_config_pull_noop
    { destination := "", options := none, s3 := [{ bucket := "b", keys := ["k"] }] }
    (Or.inl rfl)
  rw [h.2 (fun _ => true) ["x"]]
  exact ⟨rfl, rfl, rfl⟩

/-- C4: extraction of the mandatory `id` attribute from a live instance
whose decoded attribute blob has no `id` key is the unchecked type
assertion `decoded["id"].(string)` on a nil interface value: it ends in
an unrecoverable runtime fault (`panicTypeAssert`), not a returned,
recoverable decode error; shown in general for the per-instance decoding
step and on a whole concrete state document. -/
theorem C4_missing_id_is_panic (resType : String) (kvs : List (String × GoVal))
    (h : lookupVal kvs "id" = none) :
    decodeAttrs resType kvs = .error .panicTypeAssert ∧
    (LoadStateFromFile
        (fun _ => .state ⟨[⟨[⟨"aws_instance", [⟨some (.parsed [("foo", .vstr "bar")])⟩]⟩]⟩]⟩)
        "terraform.tfstate").2 = some .panicTypeAssert := by
  refine ⟨?_, rfl⟩
  unfold decodeAttrs
  rw [h]

/-- Witness for C4: an attribute blob with no `id` key. -/
theorem C4_missing_id_is_panic_witness :
    lookupVal [("foo", GoVal.vstr "bar")] "id" = none ∧
    decodeAttrs "aws_instance" [("foo", GoVal.vstr "bar")] = .error .panicTypeAssert :=
  ⟨rfl, (C4_missing_id_is_panic "aws_instance" [("foo", GoVal.vstr "bar")] rfl).1⟩

/-- C7: path-substitution rules are applied in list order (appending a
rule means applying it last, to the result of the earlier rules), each a
literal replacement of all occurrences; the spec's example
`[{old:"/", new:"_"}, {old:"_v2", new:""}]` applied to `a/b_v2` yields
`a_b`, and a key with several occurrences has all of them replaced. -/
theorem C7_substitutions_in_order_literal (o : Options) (r : Substitution) (key : String) :
    transformKey (some { o with pathSubstitutions := o.pathSubstitutions ++ [r] }) key
      = goReplace (transformKey (some o) key) r.old r.new ∧
    transformKey (some ⟨[⟨"/", "_"⟩, ⟨"_v2", ""⟩], false⟩) "a/b_v2" = "a_b" ∧
    transformKey (some ⟨[⟨"/", "_"⟩], false⟩) "a/b/c" = "a_b_c" := by
  refine ⟨?_, rfl, rfl⟩
  simp [transformKey, List.foldl_append]

/-- C9: the decoder emits one descriptor per retained live instance: the
spec's synthetic two-module document (one live instance with `id` and
`arn`, one instance with no current generation, one live instance of an
allow-listed type without `arn`) yields exactly two descriptors, the
second with an empty ARN; a document whose only instance has no current
generation yields none; a live instance without `arn` whose type is not
allow-listed is dropped. -/
theorem C9_decoder_round_trip :
    LoadStateFromFile (fun _ => .state ⟨[
        ⟨[⟨"aws_instance", [⟨none⟩,
            ⟨some (.parsed [("id", .vstr "i-123"),
              ("arn", .vstr "arn:aws:ec2:eu-west-1:123456789012:instance/i-123")])⟩]⟩]⟩,
        ⟨[⟨"aws_route53_zone", [⟨some (.parsed [("id", .vstr "Z123")])⟩]⟩]⟩]⟩)
        "terraform.tfstate"
      = ([⟨"i-123", "arn:aws:ec2:eu-west-1:123456789012:instance/i-123"⟩, ⟨"Z123", ""⟩], none) ∧
    LoadStateFromFile (fun _ => .state ⟨[⟨[⟨"aws_instance", [⟨none⟩]⟩]⟩]⟩) "terraform.tfstate"
      = ([], none) ∧
    LoadStateFromFile
        (fun _ => .state ⟨[⟨[⟨"aws_instance", [⟨some (.parsed [("id", .vstr "i-9")])⟩]⟩]⟩]⟩)
        "terraform.tfstate"
      = ([], none) :=
  ⟨rfl, rfl, rfl⟩

/-- C10: calling `Download` directly with nil options is only safe while
no destination file exists: the substitution loop guards nil options (the
key is passed through unchanged), but once some configured key's
destination file exists the overwrite check dereferences the nil pointer
and the call ends in a panic; callers going through `Pull` are protected,
because a successful `Verify` always leaves non-nil options, so `Pull`
never ends in the nil-dereference panic. -/
theorem C10_nil_options_deref (b : S3Backend) (destination : String) (netOk : Bool)
    (fs : List String) (hex : ∃ key ∈ b.keys, localPath destination b.bucket none key ∈ fs) :
    (∀ key : String, transformKey none key = key) ∧
    (b.Download destination none netOk fs).result = .error .panicNilDeref ∧
    (∀ t t' : TerraformBackends, t.Verify = .ok t' → t'.options ≠ none) ∧
    (∀ (t : TerraformBackends) (net : Nat → Bool) (fs' : List String),
      (t.Pull net fs').result ≠ .error .panicNilDeref) := by
  refine ⟨fun key => rfl, Download_none_exists_panic b destination netOk fs hex, ?_, ?_⟩
  · intro t t' h
    obtain ⟨⟨o, ho⟩, _, _⟩ := Verify_ok_options t t' h
    simp [ho]
  · intro t net fs'
    unfold TerraformBackends.Pull
    rcases hv : t.Verify with e | t'
    · simp
    · obtain ⟨⟨o, ho⟩, _, _⟩ := Verify_ok_options t t' hv
      dsimp only
      rw [ho]
      rcases hp : pullLoop t'.destination (some o) net t'.s3 0 [] fs' [] with ⟨sf, fs1, effs, err⟩
      have hnp := pullLoop_some_no_nil_panic t'.destination o net t'.s3 0 [] fs' []
      rw [hp] at hnp
      simp only [] at hnp
      cases err with
      | none => simp
      | some e =>
        simp only []
        intro hcontra
        apply hnp
        simp only [Except.error.injEq] at hcontra
        rw [hcontra]

/-- Witness for C10: one key whose destination file exists makes the
direct nil-options `Download` panic, while `Pull` on a configuration
with nil options never does. -/
theorem C10_nil_options_deref_witness :
    (S3Backend.Download ⟨"b", ["k"], "", "", "", ""⟩ "d" none true ["d/b/k"]).result
      = .error .panicNilDeref ∧
    (({ destination := "d", options := none, s3 := [⟨"b", ["k"], "", "", "", ""⟩] } :
        TerraformBackends).Pull (fun _ => true) []).result ≠ .error .panicNilDeref := by
  have h := C10_nil_options_deref ⟨"b", ["k"], "", "", "", ""⟩ "d" true ["d/b/k"]
    ⟨"k", by decide, by decide⟩
  exact ⟨h.2.1, h.2.2.2 _ (fun _ => true) []⟩

/-- C3 counterexample: two distinct object keys of the same bucket whose
rewritten keys coincide (`a/b` and `a_b` under the rule `/ → _`) map to
the same local path, so the Local-to-Remote Map ends up with a single
entry for the two fetched objects — refuting "no two fetched objects
(distinct container+key pairs) yield the same local path". -/
theorem C3_collision_counterexample :
    ("a/b" : String) ≠ "a_b" ∧
    localPath "d" "b" (some ⟨[⟨"/", "_"⟩], false⟩) "a/b"
      = localPath "d" "b" (some ⟨[⟨"/", "_"⟩], false⟩) "a_b" ∧
    (S3Backend.Download ⟨"b", ["a/b", "a_b"], "", "", "", ""⟩ "d"
        (some ⟨[⟨"/", "_"⟩], false⟩) true []).result
      = .ok [("d/b/a_b", "arn:aws:s3:::b/a_b")] :=
  ⟨by decide, rfl, rfl⟩

/-- C3 amended: the keys of the Local-to-Remote Map are unique because it
is a map, and each local path is a deterministic function of the
container name and the rewritten key; but distinct container+key pairs
are not guaranteed distinct local paths — keys with equal rewrites
collide, and the later-processed object's reference overwrites the
earlier one. -/
theorem C3_local_map_keys_unique (b : S3Backend) (destination : String)
    (options : Option Options) (netOk : Bool) (fs : List String)
    (m : List (String × String)) (k1 k2 : String)
    (hres : (b.Download destination options netOk fs).result = .ok m)
    (heq : transformKey options k1 = transformKey options k2) :
    (m.map Prod.fst).Nodup ∧
    localPath destination b.bucket options k1 = localPath destination b.bucket options k2 :=
  ⟨Download_filenames_nodup b destination options netOk fs m hres, by
    unfold localPath
    rw [heq]⟩

/-- Witness for the amended C3 at the counterexample's configuration. -/
theorem C3_local_map_keys_unique_witness :
    (([("d/b/a_b", "arn:aws:s3:::b/a_b")] : List (String × String)).map Prod.fst).Nodup ∧
    localPath "d" "b" (some ⟨[⟨"/", "_"⟩], false⟩) "a/b"
      = localPath "d" "b" (some ⟨[⟨"/", "_"⟩], false⟩) "a_b" :=
  C3_local_map_keys_unique ⟨"b", ["a/b", "a_b"], "", "", "", ""⟩ "d"
    (some ⟨[⟨"/", "_"⟩], false⟩) true [] [("d/b/a_b", "arn:aws:s3:::b/a_b")]
    "a/b" "a_b" rfl rfl

/-- Two-backend configuration for C1: both backends carry one state file
and the two files hold the same resource identifier. -/
def c1Config : TerraformBackends :=
  { destination := "d", options := some ⟨[], false⟩,
    s3 := [⟨"b1", ["s"], "", "", "", ""⟩, ⟨"b2", ["s"], "", "", "", ""⟩] }

/-- Disk contents for C1: both pulled state files decode to a single
resource with identifier `i-123`. -/
def c1Disk : String → FileContent := fun f =>
  if f = "d/b1/s" ∨ f = "d/b2/s" then
    .state ⟨[⟨[⟨"aws_instance", [⟨some (.parsed [("id", .vstr "i-123"), ("arn", .vstr "x")])⟩]⟩]⟩]⟩
  else .absent

/-- C1 counterexample: `Load` ranges over the `StateFilenames` Go map,
whose iteration order is unspecified.  For the two-backend configuration
there is an admissible iteration order (a permutation of the map) under
which the index entry for the shared identifier is the reference of the
backend configured EARLIER, refuting "the final entry is the reference of
the backend processed later in configuration order". -/
theorem C1_collision_counterexample :
    (c1Config.Pull (fun _ => true) []).t.stateFilenames
      = [("d/b1/s", "arn:aws:s3:::b1/s"), ("d/b2/s", "arn:aws:s3:::b2/s")] ∧
    List.Perm [("d/b2/s", "arn:aws:s3:::b2/s"), ("d/b1/s", "arn:aws:s3:::b1/s")]
      ((c1Config.Pull (fun _ => true) []).t.stateFilenames) ∧
    (c1Config.Pull (fun _ => true) []).t.Load c1Disk
        [("d/b2/s", "arn:aws:s3:::b2/s"), ("d/b1/s", "arn:aws:s3:::b1/s")]
      = .ok [("i-123", "arn:aws:s3:::b1/s")] ∧
    ("arn:aws:s3:::b1/s" : String) ≠ "arn:aws:s3:::b2/s" := by
  refine ⟨rfl, ?_, rfl, by decide⟩
  exact List.reverse_perm [("d/b1/s", "arn:aws:s3:::b1/s"), ("d/b2/s", "arn:aws:s3:::b2/s")]

/-- C1 amended: collision resolution in the Resource Index is last write
wins with respect to the iteration order actually taken over the
`StateFilenames` map — for every iteration order (a permutation of the
map) the entry for an identifier is the reference of the last processed
file that contributes it.  Since Go map iteration order is unspecified,
the winner is not determined by backend configuration order. -/
theorem C1_load_last_iteration_write_wins (t : TerraformBackends)
    (disk : String → FileContent) (pre post : List (String × String))
    (e : String × String) (id : String) (m : List (String × String))
    (hperm : List.Perm (pre ++ e :: post) t.stateFilenames)
    (hok : t.Load disk (pre ++ e :: post) = .ok m)
    (he : contributesID disk e id = true)
    (hpost : ∀ e' ∈ post, contributesID disk e' id = false) :
    lookupAssoc m id = some e.2 := by
  unfold TerraformBackends.Load at hok
  rw [show pre ++ e :: post = (pre ++ [e]) ++ post from by simp] at hok
  rw [loadLoop_append] at hok
  rcases h1 : loadLoop disk (pre ++ [e]) [] with e1 | m1 <;> rw [h1] at hok
  · simp at hok
  · simp only [] at hok
    rw [loadLoop_append] at h1
    rcases h2 : loadLoop disk pre [] with e2 | m2 <;> rw [h2] at h1
    · simp at h1
    · simp only [] at h1
      have hlast := loadLoop_single_contrib disk id e m2 m1 he h1
      have hkeep := loadLoop_no_contrib disk id post m1 m hpost hok
      rw [hkeep, hlast]

/-- Witness for the amended C1: under the counterexample's iteration
order the last contributing file is the earlier-configured backend's, and
its reference wins. -/
theorem C1_load_last_iteration_write_wins_witness :
    lookupAssoc [("i-123", "arn:aws:s3:::b1/s")] "i-123" = some "arn:aws:s3:::b1/s" :=
  C1_load_last_iteration_write_wins (c1Config.Pull (fun _ => true) []).t c1Disk
    [("d/b2/s", "arn:aws:s3:::b2/s")] [] ("d/b1/s", "arn:aws:s3:::b1/s") "i-123"
    [("i-123", "arn:aws:s3:::b1/s")] (by decide) rfl rfl (by simp)

/-- C5: `Pull` is fail-fast across backends.  If the backends before `bk`
complete without error and `bk`'s download fails, `Pull` propagates
exactly that error; the filesystem and effect log are those accumulated
through `bk` (so the earlier backends' files remain on disk, and the
equality of the effect log shows the backends after `bk` are never
attempted); `StateFilenames` holds only the earlier backends' entries. -/
theorem C5_pull_fail_fast (t t' : TerraformBackends) (net : Nat → Bool) (fs : List String)
    (pre : List S3Backend) (bk : S3Backend) (post : List S3Backend)
    (sf1 : List (String × String)) (fs1 : List String) (effs1 : List Eff) (e : GoErr)
    (hv : t.Verify = .ok t')
    (hs : t'.s3 = pre ++ bk :: post)
    (hpre : pullLoop t'.destination t'.options net pre 0 [] fs [] = (sf1, fs1, effs1, none))
    (herr : (bk.Download t'.destination t'.options (net pre.length) fs1).result = .error e) :
    (t.Pull net fs).result = .error e ∧
    (t.Pull net fs).fs = (bk.Download t'.destination t'.options (net pre.length) fs1).fs ∧
    (t.Pull net fs).effs
      = effs1 ++ (bk.Download t'.destination t'.options (net pre.length) fs1).effs ∧
    (∀ p ∈ fs1, p ∈ (t.Pull net fs).fs) ∧
    (t.Pull net fs).t.stateFilenames = sf1 := by
  have hpull : pullLoop t'.destination t'.options net t'.s3 0 [] fs []
      = (sf1, (bk.Download t'.destination t'.options (net pre.length) fs1).fs,
          effs1 ++ (bk.Download t'.destination t'.options (net pre.length) fs1).effs,
          some e) := by
    rw [hs, pullLoop_split]
    rw [hpre]
    dsimp only
    rw [Nat.zero_add]
    unfold pullLoop
    rw [herr]
  unfold TerraformBackends.Pull
  rw [hv]
  dsimp only
  rw [hpull]
  refine ⟨rfl, rfl, rfl, ?_, rfl⟩
  intro p hp
  exact Download_fs_mono bk t'.destination t'.options (net pre.length) fs1 p hp

/-- Three-backend configuration for the C5 witness. -/
def c5Config : TerraformBackends :=
  { destination := "d", options := some ⟨[], false⟩,
    s3 := [⟨"b1", ["k1"], "", "", "", ""⟩, ⟨"b2", ["k2"], "", "", "", ""⟩,
           ⟨"b3", ["k3"], "", "", "", ""⟩] }

/-- Network oracle for the C5 witness: only the second backend's batched
retrieval fails. -/
def c5Net : Nat → Bool := fun i => i != 1

/-- Witness for C5: with backend 2 of 3 failing, `Pull` returns backend
2's fetch error, backend 1's file is still on disk, and the effect log
stops after backend 2's attempted batch — backend 3 is never touched. -/
theorem C5_pull_fail_fast_witness :
    (c5Config.Pull c5Net []).result = .error (.fetchErr "b2") ∧
    "d/b1/k1" ∈ (c5Config.Pull c5Net []).fs ∧
    (c5Config.Pull c5Net []).effs
      = [.mkdirAll "d/b1", .openFile "d/b1/k1", .fetch "b1" ["k1"],
         .mkdirAll "d/b2", .openFile "d/b2/k2", .fetch "b2" ["k2"]] := by
  have h := C5_pull_fail_fast c5Config c5Config c5Net [] [⟨"b1", ["k1"], "", "", "", ""⟩]
    ⟨"b2", ["k2"], "", "", "", ""⟩ [⟨"b3", ["k3"], "", "", "", ""⟩]
    [("d/b1/k1", "arn:aws:s3:::b1/k1")] ["d/b1/k1"]
    [.mkdirAll "d/b1", .openFile "d/b1/k1", .fetch "b1" ["k1"]]
    (.fetchErr "b2") rfl rfl rfl rfl
  refine ⟨h.1, ?_, ?_⟩
  · exact h.2.2.2.1 "d/b1/k1" (by decide)
  · rw [h.2.2.1]
    rfl

/-- C6: `Load` is fail-soft per file.  A `StateFilenames` entry whose
decode returns an error contributes nothing and the error is not
propagated: the index is the same as if the entry were absent, and as
long as no file's decode ends in a panic (which would kill the process),
`Load` returns an index — the Go function's error is always `nil`. -/
theorem C6_load_fail_soft (disk : String → FileContent) (pre post : List (String × String))
    (ebad : String × String) (err : GoErr) (t : TerraformBackends)
    (hbad : (LoadStateFromFile disk ebad.1).2 = some err)
    (hnp1 : err ≠ .panicTypeAssert) (hnp2 : err ≠ .panicNilDeref) :
    t.Load disk (pre ++ ebad :: post) = t.Load disk (pre ++ post) ∧
    (∀ (order : List (String × String)),
      (∀ en ∈ order, (LoadStateFromFile disk en.1).2 ≠ some .panicTypeAssert ∧
                     (LoadStateFromFile disk en.1).2 ≠ some .panicNilDeref) →
      ∃ m, t.Load disk order = .ok m) := by
  constructor
  · unfold TerraformBackends.Load
    rw [show pre ++ ebad :: post = (pre ++ [ebad]) ++ post from by simp]
    rw [loadLoop_append disk (pre ++ [ebad]) post, loadLoop_append disk pre [ebad],
        loadLoop_append disk pre post]
    rcases h2 : loadLoop disk pre [] with e2 | m2
    · rfl
    · dsimp only
      obtain ⟨f, sref⟩ := ebad
      simp only at hbad
      rw [loadLoop_cons]
      rcases hf : LoadStateFromFile disk f with ⟨rs, e0⟩
      rw [hf] at hbad
      simp only [] at hbad
      subst hbad
      match err, hnp1, hnp2 with
      | .configErr msg, _, _ => rfl
      | .fetchErr msg, _, _ => rfl
      | .decodeErr msg, _, _ => rfl
      | .openErr msg, _, _ => rfl
      | .panicTypeAssert, hnp1, _ => exact absurd rfl hnp1
      | .panicNilDeref, _, hnp2 => exact absurd rfl hnp2
  · intro order hnp
    exact loadLoop_ok_of_no_panic disk order [] hnp

/-- Disk contents for the C6 witness: `f1` and `f3` are valid state
files with one resource each, everything else is rejected by the state
file reader. -/
def c6Disk : String → FileContent := fun f =>
  if f = "f1" then
    .state ⟨[⟨[⟨"aws_instance", [⟨some (.parsed [("id", .vstr "a"), ("arn", .vstr "xa")])⟩]⟩]⟩]⟩
  else if f = "f3" then
    .state ⟨[⟨[⟨"aws_instance", [⟨some (.parsed [("id", .vstr "c"), ("arn", .vstr "xc")])⟩]⟩]⟩]⟩
  else .unreadable

/-- Witness for C6: one corrupt state file among three yields the index
of the two valid files, with no error from `Load`. -/
theorem C6_load_fail_soft_witness :
    ({ destination := "d", options := none, s3 := [] } : TerraformBackends).Load c6Disk
        [("f1", "r1"), ("f2", "r2"), ("f3", "r3")]
      = ({ destination := "d", options := none, s3 := [] } : TerraformBackends).Load c6Disk
        [("f1", "r1"), ("f3", "r3")] ∧
    ({ destination := "d", options := none, s3 := [] } : TerraformBackends).Load c6Disk
        [("f1", "r1"), ("f2", "r2"), ("f3", "r3")]
      = .ok [("a", "r1"), ("c", "r3")] := by
  have h := C6_load_fail_soft c6Disk [("f1", "r1")] [("f3", "r3")] ("f2", "r2")
    (.decodeErr "f2") { destination := "d", options := none, s3 := [] }
    rfl (by decide) (by decide)
  exact ⟨h.1, rfl⟩

/-- C8: `Pull` with overwrite off is idempotent with respect to network
retrieval: when every configured object's destination file already
exists, `Pull` succeeds, issues no batched retrieval and writes no file
(the only effects are the idempotent directory creations), and the
`StateFilenames` map still records an entry for every configured
object's local path. -/
theorem C8_pull_idempotent (t t' : TerraformBackends) (o : Options) (net : Nat → Bool)
    (fs : List String)
    (hv : t.Verify = .ok t')
    (ho : t'.options = some o)
    (how : o.overwrite = false)
    (hfull : ∀ b ∈ t'.s3, ∀ key ∈ b.keys, localPath t'.destination b.bucket (some o) key ∈ fs) :
    (t.Pull net fs).result = .ok () ∧
    (t.Pull net fs).fs = fs ∧
    (∀ eff ∈ (t.Pull net fs).effs, ∃ p, eff = Eff.mkdirAll p) ∧
    (∀ b ∈ t'.s3, ∀ key ∈ b.keys,
      lookupAssoc (t.Pull net fs).t.stateFilenames
        (localPath t'.destination b.bucket (some o) key) ≠ none) := by
  obtain ⟨sf', effs', heq, hmk, _, hcov⟩ :=
    pullLoop_all_exist t'.destination o how net t'.s3 0 [] fs [] hfull
  unfold TerraformBackends.Pull
  rw [hv]
  dsimp only
  rw [ho, heq]
  dsimp only
  refine ⟨rfl, rfl, ?_, ?_⟩
  · intro eff heff
    simp only [List.nil_append] at heff
    exact hmk eff heff
  · intro b hb key hk
    exact hcov b hb key hk

/-- Configuration for the C8 witness. -/
def c8Config : TerraformBackends :=
  { destination := "d", options := some ⟨[], false⟩, s3 := [⟨"b", ["k"], "", "", "", ""⟩] }

/-- Witness for C8: a second pull against a destination already holding
the one configured object performs no retrieval and still records the
mapping. -/
theorem C8_pull_idempotent_witness :
    (c8Config.Pull (fun _ => true) ["d/b/k"]).result = .ok () ∧
    (c8Config.Pull (fun _ => true) ["d/b/k"]).fs = ["d/b/k"] ∧
    lookupAssoc (c8Config.Pull (fun _ => true) ["d/b/k"]).t.stateFilenames "d/b/k" ≠ none := by
  have h := C8_pull_idempotent c8Config c8Config ⟨[], false⟩ (fun _ => true) ["d/b/k"]
    rfl rfl rfl (by decide)
  exact ⟨h.1, h.2.1, h.2.2.2 ⟨"b", ["k"], "", "", "", ""⟩ (by decide) "k" (by decide)⟩

end Awstools
